import Mathlib

/-! Elasticsearch log hook (`pkg/log/eshook.go`).

A shallow embedding of the hook that forwards logrus entries to an
Elasticsearch index, and the properties of its level filter, message
encoder, index provisioning, delivery strategies and cancellation.

Stateful code is written in explicit state-passing style over a `World`
that records every request sent to the backend, the number of times an
index-name function has been invoked, the cancelled contexts, the spawned
goroutines and the bulk queue.  The backend is an arbitrary oracle
(`Client`): each request is answered from the request history, so every
result below holds for every possible backend behaviour.
-/

namespace EsHook

/-! ## Severities (`logrus.Level`, a `uint32`) -/

/-- The type `logrus.Level`: an unsigned number, smaller means more severe. -/
abbrev Level := Nat

def PanicLevel : Level := 0
def FatalLevel : Level := 1
def ErrorLevel : Level := 2
def WarnLevel : Level := 3
def InfoLevel : Level := 4
def DebugLevel : Level := 5
def TraceLevel : Level := 6

/-- The slice literal ranged over in `newHookFuncAndFireFunc` (lines 78-86),
which is also the enumeration "from most to least severe". -/
def AllLevels : List Level :=
  [PanicLevel, FatalLevel, ErrorLevel, WarnLevel, InfoLevel, DebugLevel, TraceLevel]

/-- Position of a severity in the enumeration Panic, Fatal, Error, Warn, Info,
Debug, Trace: rank 0 is the most severe. -/
def severityRank (s : Level) : Nat := AllLevels.indexOf s

/-- Severity `s` is at or above `t`: it is more severe than or equal to `t` in
the enumeration order. -/
def atOrAbove (s t : Level) : Prop := severityRank s ≤ severityRank t

instance (s t : Level) : Decidable (atOrAbove s t) := by
  unfold atOrAbove; infer_instance

/-- The loop of lines 77-90: append each level `l` with `l <= level`, in the
order of the slice literal. -/
def computeLevels (level : Level) : List Level :=
  AllLevels.foldl (fun levels l => if l ≤ level then levels ++ [l] else levels) []

/-- The method `Level.String` of logrus (through `MarshalText`): the seven
names, and "unknown" for any other number. -/
def Level.String (level : Level) : String :=
  if level = TraceLevel then "trace"
  else if level = DebugLevel then "debug"
  else if level = InfoLevel then "info"
  else if level = WarnLevel then "warning"
  else if level = ErrorLevel then "error"
  else if level = FatalLevel then "fatal"
  else if level = PanicLevel then "panic"
  else "unknown"

/-- The function `strings.ToUpper`, on the ASCII letters (every string
`Level.String` returns is ASCII). -/
def ToUpper (s : String) : String := String.mk (s.data.map Char.toUpper)

/-! ## Values, fields, entries and documents -/

/-- A Go `error` value that is not nil. -/
structure Error where
  msg : String
deriving DecidableEq, Repr

/-- The value `ErrCannotCreateIndex` (line 15). -/
def ErrCannotCreateIndex : Error := ⟨"cannot create index"⟩

/-- A value of type `interface{}` stored in `logrus.Fields`: the nil
interface, a string, a value whose dynamic type implements `error` and whose
`Error()` returns `text`, a nil pointer of a type that implements `error`
(the interface value is not nil, and `Error()` dereferences the pointer and
panics), or any other value (a number, a channel, ...). -/
inductive Value where
  | nil
  | str (s : String)
  | error (text : String)
  | nilError
  | other (tag : Nat)
deriving DecidableEq, Repr

/-- The type `logrus.Fields`, a `map[string]interface{}`, as an association list. -/
abbrev Fields := List (String × Value)

/-- The map read `v, ok := m[k]`: `none` when `ok` is false. -/
def Fields.get (m : Fields) (k : String) : Option Value := m.lookup k

/-- The keys of the map. -/
def Fields.keys (m : Fields) : List String := m.map Prod.fst

/-- The map write `m[k] = v`: replaces the value of an existing key, adds the
key otherwise. -/
def Fields.set (m : Fields) (k : String) (v : Value) : Fields :=
  if m.any (fun p => p.1 == k) then
    m.map (fun p => if p.1 == k then (k, v) else p)
  else m ++ [(k, v)]

/-- The constant `logrus.ErrorKey`. -/
def ErrorKey : String := "error"

/-- A `time.Time`, identified with the text
`t.UTC().Format(time.RFC3339Nano)` that `createMessage` reads from it. -/
structure Time where
  rfc3339NanoUTC : String
deriving DecidableEq, Repr

/-- The fields of `logrus.Entry` that the hook reads. -/
structure Entry where
  Data : Fields
  Time : Time
  Level : Level
  Message : String
deriving DecidableEq, Repr

/-- The struct `message` (lines 34-40). -/
structure message where
  Host : String
  Timestamp : String
  Message : String
  Data : Fields
  Level : String
deriving DecidableEq, Repr

/-! ## Backend, contexts and the world -/

/-- A request that the client sent to the backend, with the context it was
sent under. -/
inductive Event where
  | indexExists (name : String) (ctx : Nat)
  | createIndex (name : String) (ctx : Nat)
  | index (name : String) (body : message) (ctx : Nat)
deriving DecidableEq, Repr

/-- The result type `*elastic.IndicesCreateResult`. -/
structure IndicesCreateResult where
  Acknowledged : Bool
deriving DecidableEq, Repr

/-- What `IndexService.Do` does with an index-write request: the client
refuses it before anything is sent (the request fails validation or its body
cannot be encoded as JSON) and returns that error, or the client sends it and
returns the error of the round trip (nil when the write succeeded). -/
inductive IndexAnswer where
  | refused (err : Error)
  | sent (err : Option Error)
deriving DecidableEq, Repr

/-- The error that `Do` returns. -/
def IndexAnswer.err : IndexAnswer → Option Error
  | IndexAnswer.refused err => some err
  | IndexAnswer.sent err => err

/-- The backend seen through `*elastic.Client`: each `Do` is answered from the
requests sent so far, whether the request's context is already done, and the
request itself.  A `Do` that returns a non-nil error returns no usable value
(`Except.error`). -/
structure Client where
  indexExistsDo : List Event → Bool → String → Except Error Bool
  createIndexDo : List Event → Bool → String → Except Error IndicesCreateResult
  indexDo : List Event → Bool → String → message → IndexAnswer
  bulkProcessorDo : List Event → Option Error

/-- The type `IndexNameFunc`, a `func() string` that may answer differently
from call to call: the answer is a function of how many index-name calls came
before. -/
abbrev IndexNameFunc := Nat → String

/-- The values a `fireFunc` field can hold: the two top-level functions and
the closure returned by `makeBulkFireFunc`, which captures `processor`
(`none` is the nil pointer). -/
inductive FireFunc where
  | syncFireFunc
  | asyncFireFunc
  | bulkFireFunc (processor : Option Nat)
deriving DecidableEq, Repr

/-- The struct `ElasticHook` (lines 24-32).  A context is named by a number;
`ctxCancel` holds the context that the cancel function cancels. -/
structure ElasticHook where
  client : Client
  host : String
  index : IndexNameFunc
  levels : List Level
  ctx : Nat
  ctxCancel : Nat
  fireFunc : FireFunc

/-- The request built by `elastic.NewBulkIndexRequest().Index(..).Doc(..)`. -/
structure BulkIndexRequest where
  index : String
  doc : message
deriving DecidableEq, Repr

/-- Everything the hook's code can change outside its own return values. -/
structure World where
  /-- Requests the client sent to the backend, oldest first. -/
  trace : List Event
  /-- Number of index-name function invocations so far. -/
  indexCalls : Nat
  /-- Next unused context number. -/
  nextCtx : Nat
  /-- Contexts whose cancel function has been called. -/
  cancelled : List Nat
  /-- Goroutines started with `go syncFireFunc(entry, hook)` that have not run yet. -/
  goroutines : List (Entry × ElasticHook)
  /-- Next unused bulk-processor number. -/
  nextProcessor : Nat
  /-- Requests handed to `processor.Add`, with the processor they were added to. -/
  bulkQueue : List (Nat × BulkIndexRequest)

/-- An empty world. -/
def World.empty : World := ⟨[], 0, 0, [], [], 0, []⟩

/-- Whether `ctx.Done()` is closed. -/
def World.ctxDone (w : World) (ctx : Nat) : Bool := decide (ctx ∈ w.cancelled)

/-- Calling a `context.CancelFunc`: the first call cancels the context, later
calls do nothing. -/
def World.cancel (w : World) (ctx : Nat) : World :=
  if ctx ∈ w.cancelled then w else { w with cancelled := ctx :: w.cancelled }

/-- The call `context.WithCancel(context.TODO())`: a fresh context. -/
def World.withCancel (w : World) : Nat × World :=
  (w.nextCtx, { w with nextCtx := w.nextCtx + 1 })

/-- One invocation of an index-name function. -/
def World.callIndex (w : World) (f : IndexNameFunc) : String × World :=
  (f w.indexCalls, { w with indexCalls := w.indexCalls + 1 })

/-- Record a request sent to the backend. -/
def World.send (w : World) (e : Event) : World :=
  { w with trace := w.trace ++ [e] }

/-- What a call gives back: it returns an error value (nil is `none`), or it
panics on a nil pointer. -/
inductive Result where
  | returned (err : Option Error)
  | panicked
deriving DecidableEq, Repr

/-! ## The hook's code -/

/-- The function `createMessage` (lines 134-150).  Returns the document, or
`none` when the call panics inside `err.Error()`, and the entry as the call
leaves it; the hook is only read. -/
def createMessage (entry : Entry) (hook : ElasticHook) : Option message × Entry :=
  let level := Level.String entry.Level
  let normalised : Option Entry :=
    match entry.Data.get ErrorKey with
    | some (Value.error text) =>
      some { entry with Data := entry.Data.set ErrorKey (Value.str text) }
    | some Value.nilError => none
    | _ => some entry
  match normalised with
  | none => (none, entry)
  | some entry =>
    (some { Host := hook.host
            Timestamp := entry.Time.rfc3339NanoUTC
            Message := entry.Message
            Data := entry.Data
            Level := ToUpper level }, entry)

/-- The function `newHookFuncAndFireFunc` (lines 76-120). -/
def newHookFuncAndFireFunc (client : Client) (host : String) (level : Level)
    (indexFunc : IndexNameFunc) (fireFunc : FireFunc) (w : World) :
    (Option ElasticHook × Option Error) × World :=
  let levels := computeLevels level
  let (ctx, w) := w.withCancel
  let hook : ElasticHook :=
    { client := client, host := host, index := indexFunc, levels := levels,
      ctx := ctx, ctxCancel := ctx, fireFunc := fireFunc }
  let (name, w) := w.callIndex indexFunc
  let r := client.indexExistsDo w.trace (w.ctxDone ctx) name
  let w := w.send (Event.indexExists name ctx)
  match r with
  | Except.error err => ((none, some err), w.cancel ctx)
  | Except.ok «exists» =>
    if !«exists» then
      let (name, w) := w.callIndex indexFunc
      let r := client.createIndexDo w.trace (w.ctxDone ctx) name
      let w := w.send (Event.createIndex name ctx)
      match r with
      | Except.error err => ((none, some err), w.cancel ctx)
      | Except.ok createIndex =>
        if !createIndex.Acknowledged then
          ((none, some ErrCannotCreateIndex), w.cancel ctx)
        else ((some hook, none), w)
    else ((some hook, none), w)

/-- The function `syncFireFunc` (lines 152-155): the index name is resolved,
the document is built, and `Do` is called on one index request under the
hook's context; the error of `Do` is returned.  The request reaches the
backend unless the client refuses it; a panic in `createMessage` ends the
call before `Do`. -/
def syncFireFunc (entry : Entry) (hook : ElasticHook) (w : World) :
    Result × Entry × World :=
  let (name, w) := w.callIndex hook.index
  match createMessage entry hook with
  | (none, entry) => (Result.panicked, entry, w)
  | (some msg, entry) =>
    match hook.client.indexDo w.trace (w.ctxDone hook.ctx) name msg with
    | IndexAnswer.refused err => (Result.returned (some err), entry, w)
    | IndexAnswer.sent err =>
      (Result.returned err, entry, w.send (Event.index name msg hook.ctx))

/-- The function `asyncFireFunc` (lines 129-132): starts a goroutine and
returns nil. -/
def asyncFireFunc (entry : Entry) (hook : ElasticHook) (w : World) :
    Result × Entry × World :=
  (Result.returned none, entry, { w with goroutines := w.goroutines ++ [(entry, hook)] })

/-- The closure returned by `makeBulkFireFunc` (lines 165-169), for the
captured `processor`. -/
def bulkFireFunc (processor : Option Nat) (entry : Entry) (hook : ElasticHook) (w : World) :
    Result × Entry × World :=
  let (name, w) := w.callIndex hook.index
  match createMessage entry hook with
  | (none, entry) => (Result.panicked, entry, w)
  | (some msg, entry) =>
    let r : BulkIndexRequest := { index := name, doc := msg }
    match processor with
    | none => (Result.panicked, entry, w)
    | some p =>
      (Result.returned none, entry, { w with bulkQueue := w.bulkQueue ++ [(p, r)] })

/-- Calling a `fireFunc` value. -/
def callFireFunc (f : FireFunc) (entry : Entry) (hook : ElasticHook) (w : World) :
    Result × Entry × World :=
  match f with
  | FireFunc.syncFireFunc => syncFireFunc entry hook w
  | FireFunc.asyncFireFunc => asyncFireFunc entry hook w
  | FireFunc.bulkFireFunc processor => bulkFireFunc processor entry hook w

/-- The method `ElasticHook.Fire` (lines 123-127). -/
def ElasticHook.Fire (hook : ElasticHook) (entry : Entry) (w : World) :
    Result × Entry × World :=
  callFireFunc hook.fireFunc entry hook w

/-- The method `ElasticHook.Levels` (lines 173-175). -/
def ElasticHook.Levels (hook : ElasticHook) : List Level := hook.levels

/-- The method `ElasticHook.Cancel` (lines 178-180). -/
def ElasticHook.Cancel (hook : ElasticHook) (w : World) : World :=
  w.cancel hook.ctxCancel

/-- The function `makeBulkFireFunc` (lines 157-170): starts a bulk processor
and returns the closure together with the start's error.  The processor
pointer is nil exactly when the start failed. -/
def makeBulkFireFunc (client : Client) (w : World) : (FireFunc × Option Error) × World :=
  match client.bulkProcessorDo w.trace with
  | some err => ((FireFunc.bulkFireFunc none, some err), w)
  | none =>
    ((FireFunc.bulkFireFunc (some w.nextProcessor), none),
      { w with nextProcessor := w.nextProcessor + 1 })

/-- The function `NewElasticHookWithFunc` (lines 58-60). -/
def NewElasticHookWithFunc (client : Client) (host : String) (level : Level)
    (indexFunc : IndexNameFunc) (w : World) : (Option ElasticHook × Option Error) × World :=
  newHookFuncAndFireFunc client host level indexFunc FireFunc.syncFireFunc w

/-- The function `NewAsyncElasticHookWithFunc` (lines 63-65). -/
def NewAsyncElasticHookWithFunc (client : Client) (host : String) (level : Level)
    (indexFunc : IndexNameFunc) (w : World) : (Option ElasticHook × Option Error) × World :=
  newHookFuncAndFireFunc client host level indexFunc FireFunc.asyncFireFunc w

/-- The function `NewBulkProcessorElasticHookWithFunc` (lines 68-74). -/
def NewBulkProcessorElasticHookWithFunc (client : Client) (host : String) (level : Level)
    (indexFunc : IndexNameFunc) (w : World) : (Option ElasticHook × Option Error) × World :=
  match makeBulkFireFunc client w with
  | ((_, some err), w) => ((none, some err), w)
  | ((fireFunc, none), w) => newHookFuncAndFireFunc client host level indexFunc fireFunc w

/-- The scheduler runs the oldest goroutine started by `asyncFireFunc`: it
executes `syncFireFunc(entry, hook)` and drops what the call gives back. -/
def runGoroutine (w : World) : World :=
  match w.goroutines with
  | [] => w
  | (entry, hook) :: rest => (syncFireFunc entry hook { w with goroutines := rest }).2.2

/-- The function `NewElasticHook` (lines 43-45): the index name is constant. -/
def NewElasticHook (client : Client) (host : String) (level : Level) (index : String)
    (w : World) : (Option ElasticHook × Option Error) × World :=
  NewElasticHookWithFunc client host level (fun _ => index) w

/-- The logging framework's routing (logrus `LevelHooks`): a registered hook
is filed under each level of its `Levels()`, and an entry is passed to the
hook's `Fire` only when the entry's level is one of them. -/
def fireHooks (hook : ElasticHook) (entry : Entry) (w : World) : Result × Entry × World :=
  if entry.Level ∈ hook.Levels then hook.Fire entry w else (Result.returned none, entry, w)

/-- A call of one of the hook's methods. -/
inductive Call where
  | Fire (entry : Entry)
  | Levels
  | Cancel

/-- The world after one method call on the hook (`Levels` only reads). -/
def callHook (hook : ElasticHook) (w : World) : Call → World
  | Call.Fire entry => (hook.Fire entry w).2.2
  | Call.Levels => w
  | Call.Cancel => hook.Cancel w

/-- The world after a sequence of method calls on the hook. -/
def callsHook (hook : ElasticHook) (w : World) (calls : List Call) : World :=
  calls.foldl (callHook hook) w

/-! ## Concrete backends, hooks and entries -/

/-- A backend on which every index exists and every request succeeds. -/
def okClient : Client :=
  { indexExistsDo := fun _ _ _ => Except.ok true
    createIndexDo := fun _ _ _ => Except.ok ⟨true⟩
    indexDo := fun _ _ _ _ => IndexAnswer.sent none
    bulkProcessorDo := fun _ => none }

/-- A backend on which no index exists yet, creation is acknowledged and
every index write fails. -/
def freshClient : Client :=
  { indexExistsDo := fun _ _ _ => Except.ok false
    createIndexDo := fun _ _ _ => Except.ok ⟨true⟩
    indexDo := fun _ _ _ _ => IndexAnswer.sent (some ⟨"write failed"⟩)
    bulkProcessorDo := fun _ => none }

/-- A backend on which no index exists and creation is not acknowledged. -/
def unackClient : Client :=
  { indexExistsDo := fun _ _ _ => Except.ok false
    createIndexDo := fun _ _ _ => Except.ok ⟨false⟩
    indexDo := fun _ _ _ _ => IndexAnswer.sent none
    bulkProcessorDo := fun _ => none }

/-- A backend that cannot be reached. -/
def downClient : Client :=
  { indexExistsDo := fun _ _ _ => Except.error ⟨"connection refused"⟩
    createIndexDo := fun _ _ _ => Except.error ⟨"connection refused"⟩
    indexDo := fun _ _ _ _ => IndexAnswer.sent (some ⟨"connection refused"⟩)
    bulkProcessorDo := fun _ => some ⟨"connection refused"⟩ }

/-- A backend on which every index exists and every request succeeds, behind
a client for which the value `Value.other 0` is a channel: a document that
holds it cannot be encoded as JSON, and `Do` returns the encoding error
without sending anything. -/
def jsonClient : Client :=
  { indexExistsDo := fun _ _ _ => Except.ok true
    createIndexDo := fun _ _ _ => Except.ok ⟨true⟩
    indexDo := fun _ _ _ msg =>
      if msg.Data.any (fun p => p.2 == Value.other 0) then
        IndexAnswer.refused ⟨"json: unsupported type: chan int"⟩
      else IndexAnswer.sent none
    bulkProcessorDo := fun _ => none }

/-- An index-name function with one index per day, called across midnight. -/
def dailyIndex : IndexNameFunc :=
  fun n => if n = 0 then "logs-2020.01.01" else "logs-2020.01.02"

/-- The hook that construction on `okClient` with host "h1", index "logs"
and the first context returns. -/
def hookH1 (level : Level) (fireFunc : FireFunc) : ElasticHook :=
  { client := okClient, host := "h1", index := fun _ => "logs",
    levels := computeLevels level, ctx := 0, ctxCancel := 0, fireFunc := fireFunc }

/-- The sync hook that construction on `jsonClient` with host "h1", index
"logs", threshold Info and the first context returns. -/
def hookJson : ElasticHook :=
  { client := jsonClient, host := "h1", index := fun _ => "logs",
    levels := computeLevels InfoLevel, ctx := 0, ctxCancel := 0,
    fireFunc := FireFunc.syncFireFunc }

/-- The world after that construction from the empty world. -/
def worldH1 : World :=
  { trace := [Event.indexExists "logs" 0], indexCalls := 1, nextCtx := 1, cancelled := [],
    goroutines := [], nextProcessor := 0, bulkQueue := [] }

/-- The world after the bulk construction from the empty world: one bulk
processor has been started as well. -/
def worldBulkH1 : World :=
  { trace := [Event.indexExists "logs" 0], indexCalls := 1, nextCtx := 1, cancelled := [],
    goroutines := [], nextProcessor := 1, bulkQueue := [] }

/-- An entry at Error whose data holds a channel. -/
def chanEntry : Entry :=
  { Data := [("conn", Value.other 0)]
    Time := ⟨"2020-01-01T23:59:59.5Z"⟩
    Level := ErrorLevel
    Message := "connection lost" }

/-- An entry at Error that carries a nil pointer of an error type. -/
def nilErrorEntry : Entry :=
  { Data := [("user", Value.str "ann"), ("error", Value.nilError)]
    Time := ⟨"2020-01-01T23:59:59.5Z"⟩
    Level := ErrorLevel
    Message := "request failed" }

/-- An entry that carries an error value. -/
def failedEntry (level : Level) : Entry :=
  { Data := [("user", Value.str "ann"), ("error", Value.error "boom")]
    Time := ⟨"2020-01-01T23:59:59.5Z"⟩
    Level := level
    Message := "request failed" }

/-! ## Helper lemmas -/

lemma foldl_append_if (p : Level → Bool) (xs : List Level) (init : List Level) :
    xs.foldl (fun levels l => if p l then levels ++ [l] else levels) init
      = init ++ xs.filter p := by
  induction xs generalizing init with
  | nil => simp
  | cons x xs ih =>
    by_cases hx : p x
    · simp [List.foldl_cons, hx, ih, List.filter_cons]
    · simp [List.foldl_cons, hx, ih, List.filter_cons]

lemma computeLevels_eq_filter (level : Level) :
    computeLevels level = AllLevels.filter (fun l => decide (l ≤ level)) := by
  have h := foldl_append_if (fun l => decide (l ≤ level)) AllLevels []
  simpa [computeLevels] using h

lemma mem_computeLevels (level s : Level) :
    s ∈ computeLevels level ↔ s ∈ AllLevels ∧ s ≤ level := by
  simp [computeLevels_eq_filter, List.mem_filter]

lemma severityRank_of_mem {s : Level} (h : s ∈ AllLevels) : severityRank s = s := by
  simp only [AllLevels, PanicLevel, FatalLevel, ErrorLevel, WarnLevel, InfoLevel, DebugLevel,
    TraceLevel, List.mem_cons, List.mem_singleton, List.not_mem_nil, or_false] at h
  rcases h with h | h | h | h | h | h | h <;> subst h <;> decide

lemma computeLevels_of_le {level : Level} (h : level ≤ 6) :
    computeLevels level = AllLevels.take (level + 1) := by
  interval_cases level <;> decide

lemma computeLevels_of_ge {level : Level} (h : 6 ≤ level) :
    computeLevels level = AllLevels := by
  rw [computeLevels_eq_filter]
  apply List.filter_eq_self.mpr
  intro a ha
  simp only [AllLevels, PanicLevel, FatalLevel, ErrorLevel, WarnLevel, InfoLevel, DebugLevel,
    TraceLevel, List.mem_cons, List.mem_singleton, List.not_mem_nil, or_false] at ha
  simp only [decide_eq_true_eq]
  have h6 : (a : Nat) ≤ 6 := by
    rcases ha with h | h | h | h | h | h | h <;> rw [h] <;> decide
  exact Nat.le_trans h6 h

/-- What a successful construction returns: the hook's fields are the
arguments, the levels computed from the threshold, and a fresh context whose
cancel function is the hook's. -/
lemma newHook_some {client : Client} {host : String} {level : Level}
    {indexFunc : IndexNameFunc} {fireFunc : FireFunc} {w w' : World}
    {hook : ElasticHook} {err : Option Error}
    (h : newHookFuncAndFireFunc client host level indexFunc fireFunc w = ((some hook, err), w')) :
    hook = { client := client, host := host, index := indexFunc,
             levels := computeLevels level, ctx := w.nextCtx, ctxCancel := w.nextCtx,
             fireFunc := fireFunc } ∧ err = none := by
  unfold newHookFuncAndFireFunc at h
  simp only [World.withCancel, World.callIndex] at h
  split at h
  · simp at h
  · split at h
    · split at h
      · simp at h
      · split at h
        · simp at h
        · simp only [Prod.mk.injEq, Option.some.injEq] at h
          exact ⟨h.1.1.symm, h.1.2.symm⟩
    · simp only [Prod.mk.injEq, Option.some.injEq] at h
      exact ⟨h.1.1.symm, h.1.2.symm⟩

lemma lookup_cons_if (k a : String) (b : Value) (m : Fields) :
    List.lookup k ((a, b) :: m) = if k = a then some b else List.lookup k m := by
  by_cases h : k = a
  · subst h; simp [List.lookup]
  · have hk : (k == a) = false := by simpa using h
    rw [if_neg h]
    simp only [List.lookup, hk]

lemma any_of_lookup {m : Fields} {k : String} {v : Value} (h : m.lookup k = some v) :
    m.any (fun p => p.1 == k) = true := by
  induction m with
  | nil => simp [List.lookup] at h
  | cons p m ih =>
    obtain ⟨a, b⟩ := p
    rw [lookup_cons_if] at h
    by_cases hk : k = a
    · simp [List.any_cons, hk]
    · rw [if_neg hk] at h
      simp [List.any_cons, ih h]

lemma lookup_replace_self (m : Fields) (k : String) (v : Value)
    (hany : m.any (fun p => p.1 == k) = true) :
    List.lookup k (m.map (fun p => if p.1 == k then (k, v) else p)) = some v := by
  induction m with
  | nil => simp at hany
  | cons p m ih =>
    obtain ⟨a, b⟩ := p
    rw [List.map_cons]
    by_cases ha : a = k
    · subst ha
      simp only [beq_self_eq_true, if_true]
      rw [lookup_cons_if, if_pos rfl]
    · have hb : (a == k) = false := by simpa using ha
      have hany' : m.any (fun p => p.1 == k) = true := by
        simpa [List.any_cons, hb] using hany
      simp only [hb, Bool.false_eq_true, if_false]
      rw [lookup_cons_if, if_neg (fun h => ha h.symm)]
      exact ih hany'

lemma lookup_replace_other (m : Fields) (k k' : String) (v : Value) (hne : k' ≠ k) :
    List.lookup k' (m.map (fun p => if p.1 == k then (k, v) else p)) = List.lookup k' m := by
  induction m with
  | nil => rfl
  | cons p m ih =>
    obtain ⟨a, b⟩ := p
    rw [List.map_cons]
    by_cases ha : a = k
    · subst ha
      simp only [beq_self_eq_true, if_true]
      rw [lookup_cons_if, lookup_cons_if, if_neg hne, if_neg hne]
      exact ih
    · have hb : (a == k) = false := by simpa using ha
      simp only [hb, Bool.false_eq_true, if_false]
      rw [lookup_cons_if, lookup_cons_if, ih]

lemma lookup_set_self (m : Fields) (k : String) (v : Value)
    (hany : m.any (fun p => p.1 == k) = true) :
    Fields.get (Fields.set m k v) k = some v := by
  unfold Fields.get Fields.set
  rw [if_pos hany]
  exact lookup_replace_self m k v hany

lemma lookup_set_other (m : Fields) (k k' : String) (v : Value) (hne : k' ≠ k)
    (hany : m.any (fun p => p.1 == k) = true) :
    Fields.get (Fields.set m k v) k' = Fields.get m k' := by
  unfold Fields.get Fields.set
  rw [if_pos hany]
  exact lookup_replace_other m k k' v hne

lemma keys_set (m : Fields) (k : String) (v : Value)
    (hany : m.any (fun p => p.1 == k) = true) :
    Fields.keys (Fields.set m k v) = Fields.keys m := by
  unfold Fields.keys Fields.set
  rw [if_pos hany]
  rw [List.map_map]
  apply List.map_congr_left
  intro p _
  by_cases hp : p.1 = k
  · simp [hp]
  · simp [hp]

lemma levelString_table (level : Nat) :
    Level.String level =
      ["panic", "fatal", "error", "warning", "info", "debug", "trace"].getD level "unknown" := by
  by_cases h : level ≤ 6
  · interval_cases level <;> decide
  · obtain ⟨k, rfl⟩ : ∃ k, level = k + 7 := ⟨level - 7, by omega⟩
    simp [Level.String, TraceLevel, DebugLevel, InfoLevel, WarnLevel, ErrorLevel, FatalLevel,
      PanicLevel]

lemma upperLevelString_table (level : Nat) :
    ToUpper (Level.String level) =
      ["PANIC", "FATAL", "ERROR", "WARNING", "INFO", "DEBUG", "TRACE"].getD level "UNKNOWN" := by
  by_cases h : level ≤ 6
  · interval_cases level <;> decide
  · obtain ⟨k, rfl⟩ : ∃ k, level = k + 7 := ⟨level - 7, by omega⟩
    have hs : Level.String (k + 7) = "unknown" := by
      simp [Level.String, TraceLevel, DebugLevel, InfoLevel, WarnLevel, ErrorLevel, FatalLevel,
        PanicLevel]
    rw [hs]
    have hu : ToUpper "unknown" = "UNKNOWN" := by decide
    rw [hu]
    simp

/-- What `createMessage` gives back, by the value under the error key. -/
lemma createMessage_eq (entry : Entry) (hook : ElasticHook) :
    createMessage entry hook =
      match entry.Data.get ErrorKey with
      | some (Value.error text) =>
        (some { Host := hook.host, Timestamp := entry.Time.rfc3339NanoUTC,
                Message := entry.Message,
                Data := entry.Data.set ErrorKey (Value.str text),
                Level := ToUpper (Level.String entry.Level) },
          { entry with Data := entry.Data.set ErrorKey (Value.str text) })
      | some Value.nilError => (none, entry)
      | _ =>
        (some { Host := hook.host, Timestamp := entry.Time.rfc3339NanoUTC,
                Message := entry.Message, Data := entry.Data,
                Level := ToUpper (Level.String entry.Level) }, entry) := by
  unfold createMessage
  cases hget : entry.Data.get ErrorKey with
  | none => rfl
  | some v => cases v <;> rfl

/-- C1: a hook that `newHookFuncAndFireFunc` constructs with a threshold `T`
of the seven-level enumeration has a severity `S` of the enumeration in
`Levels()` exactly when `S` is at or above `T` (more severe than or equal to
it), so no severity below `T` is in `Levels()`. -/
theorem levels_iff_atOrAbove (client : Client) (host : String) (T S : Level)
    (indexFunc : IndexNameFunc) (fireFunc : FireFunc) (w w' : World)
    (hook : ElasticHook) (err : Option Error)
    (hT : T ∈ AllLevels) (hS : S ∈ AllLevels)
    (h : newHookFuncAndFireFunc client host T indexFunc fireFunc w = ((some hook, err), w')) :
    S ∈ hook.Levels ↔ atOrAbove S T := by
  have hk := (newHook_some h).1
  subst hk
  simp only [ElasticHook.Levels, atOrAbove, severityRank_of_mem hT, severityRank_of_mem hS,
    mem_computeLevels]
  exact ⟨fun h => h.2, fun h => ⟨hS, h⟩⟩

/-- C10: for every threshold number, also one outside the seven named
severities, the level list computed by `newHookFuncAndFireFunc` is the prefix
of Panic, Fatal, Error, Warn, Info, Debug, Trace of length
`min (threshold + 1) 7`; it is not empty, contains Panic, has no duplicates,
runs from most to least severe, is the full list for every threshold at or
beyond Trace, and is the `Levels()` of every hook constructed with that
threshold. -/
theorem computeLevels_take (level : Level) :
    computeLevels level = AllLevels.take (min (level + 1) 7) ∧
    computeLevels level ≠ [] ∧
    PanicLevel ∈ computeLevels level ∧
    (computeLevels level).Nodup ∧
    (computeLevels level).Pairwise (fun a b => a < b) ∧
    (TraceLevel ≤ level → computeLevels level = AllLevels) ∧
    (∀ (client : Client) (host : String) (indexFunc : IndexNameFunc) (fireFunc : FireFunc)
        (w w' : World) (hook : ElasticHook) (err : Option Error),
        newHookFuncAndFireFunc client host level indexFunc fireFunc w = ((some hook, err), w') →
        hook.Levels = computeLevels level) := by
  have hhook : ∀ (client : Client) (host : String) (indexFunc : IndexNameFunc)
      (fireFunc : FireFunc) (w w' : World) (hook : ElasticHook) (err : Option Error),
      newHookFuncAndFireFunc client host level indexFunc fireFunc w = ((some hook, err), w') →
      hook.Levels = computeLevels level := by
    intro client host indexFunc fireFunc w w' hook err h
    have hk := (newHook_some h).1
    subst hk
    rfl
  by_cases hle : (level : Nat) ≤ 6
  · have hmin : min (level + 1) 7 = level + 1 := Nat.min_eq_left (Nat.succ_le_succ hle)
    rw [hmin, computeLevels_of_le hle]
    refine ⟨rfl, ?_, ?_, ?_, ?_, ?_, ?_⟩
    · interval_cases level <;> decide
    · interval_cases level <;> decide
    · interval_cases level <;> decide
    · interval_cases level <;> decide
    · intro h6
      have h6' : 6 ≤ (level : Nat) := h6
      have : (level : Nat) = 6 := Nat.le_antisymm hle h6'
      subst this
      decide
    · intro client host indexFunc fireFunc w w' hook err h
      rw [hhook client host indexFunc fireFunc w w' hook err h, computeLevels_of_le hle]
  · have hge : 6 ≤ (level : Nat) := Nat.le_of_lt (Nat.lt_of_not_le hle)
    have hmin : min (level + 1) 7 = 7 := Nat.min_eq_right (Nat.succ_le_succ hge)
    rw [hmin, computeLevels_of_ge hge]
    refine ⟨by decide, by decide, by decide, by decide, by decide, fun _ => rfl, ?_⟩
    intro client host indexFunc fireFunc w w' hook err h
    rw [hhook client host indexFunc fireFunc w w' hook err h, computeLevels_of_ge hge]

/-- C2 as the code has it: unless the entry carries under the error key a nil
pointer of an error type, whose `Error()` panics (then `createMessage` panics
and leaves the entry as it was), `createMessage` returns a document.  The
document has the hook's host, the entry's message, and as level the
upper-cased logrus name of the entry's level: PANIC, FATAL, ERROR, WARNING,
INFO, DEBUG or TRACE, and UNKNOWN for any other number.  When the entry
carried an error value under the error key, the document's data holds that
error's text there; in every other case (no such key, nil, or a value that is
not an error) the data is the entry's data unchanged. -/
theorem createMessage_document (entry : Entry) (hook : ElasticHook) :
    (entry.Data.get ErrorKey ≠ some Value.nilError →
      ∃ msg, (createMessage entry hook).1 = some msg) ∧
    (entry.Data.get ErrorKey = some Value.nilError →
      createMessage entry hook = (none, entry)) ∧
    Level.String entry.Level =
      ["panic", "fatal", "error", "warning", "info", "debug", "trace"].getD
        entry.Level "unknown" ∧
    (∀ msg, (createMessage entry hook).1 = some msg →
      msg.Host = hook.host ∧
      msg.Message = entry.Message ∧
      msg.Level = ToUpper (Level.String entry.Level) ∧
      msg.Level =
        ["PANIC", "FATAL", "ERROR", "WARNING", "INFO", "DEBUG", "TRACE"].getD
          entry.Level "UNKNOWN" ∧
      (∀ text, entry.Data.get ErrorKey = some (Value.error text) →
        msg.Data.get ErrorKey = some (Value.str text)) ∧
      ((∀ text, entry.Data.get ErrorKey ≠ some (Value.error text)) →
        msg.Data = entry.Data)) := by
  have htab := upperLevelString_table entry.Level
  refine ⟨?_, ?_, levelString_table entry.Level, ?_⟩
  · intro hne
    rw [createMessage_eq]
    cases hget : entry.Data.get ErrorKey with
    | none => exact ⟨_, rfl⟩
    | some v =>
      cases v with
      | nilError => exact absurd hget hne
      | nil => exact ⟨_, rfl⟩
      | str s => exact ⟨_, rfl⟩
      | error text => exact ⟨_, rfl⟩
      | other tag => exact ⟨_, rfl⟩
  · intro hnil
    rw [createMessage_eq, hnil]
  · intro msg hmsg
    rw [createMessage_eq] at hmsg
    cases hget : entry.Data.get ErrorKey with
    | none =>
      simp only [hget, Option.some.injEq] at hmsg
      subst hmsg
      refine ⟨rfl, rfl, rfl, htab, ?_, fun _ => rfl⟩
      intro text h
      cases h
    | some v =>
      cases v with
      | nilError => simp [hget] at hmsg
      | nil =>
        simp only [hget, Option.some.injEq] at hmsg
        subst hmsg
        refine ⟨rfl, rfl, rfl, htab, ?_, fun _ => rfl⟩
        intro text h
        cases h
      | str s =>
        simp only [hget, Option.some.injEq] at hmsg
        subst hmsg
        refine ⟨rfl, rfl, rfl, htab, ?_, fun _ => rfl⟩
        intro text h
        cases h
      | other tag =>
        simp only [hget, Option.some.injEq] at hmsg
        subst hmsg
        refine ⟨rfl, rfl, rfl, htab, ?_, fun _ => rfl⟩
        intro text h
        cases h
      | error text =>
        simp only [hget, Option.some.injEq] at hmsg
        subst hmsg
        refine ⟨rfl, rfl, rfl, htab, ?_, ?_⟩
        · intro text' h
          injection h with h
          injection h with h
          subst h
          exact lookup_set_self _ _ _ (any_of_lookup hget)
        · intro h
          exact absurd rfl (h text)

/-- C8: `createMessage` changes nothing but the value under the error key:
every other key of the entry's data keeps its value, the set of keys is the
same, the entry's level, time and message are the same (the hook is only
read), and a second call on the entry as the first call left it returns an
equal document and leaves the entry as it is. -/
theorem createMessage_frame (entry : Entry) (hook : ElasticHook) :
    (∀ k, k ≠ ErrorKey →
      (createMessage entry hook).2.Data.get k = entry.Data.get k) ∧
    (createMessage entry hook).2.Data.keys = entry.Data.keys ∧
    (createMessage entry hook).2.Level = entry.Level ∧
    (createMessage entry hook).2.Time = entry.Time ∧
    (createMessage entry hook).2.Message = entry.Message ∧
    (createMessage (createMessage entry hook).2 hook).1 = (createMessage entry hook).1 ∧
    (createMessage (createMessage entry hook).2 hook).2 = (createMessage entry hook).2 := by
  cases hget : entry.Data.get ErrorKey with
  | none => simp [createMessage, hget]
  | some v =>
    cases v with
    | nil => simp [createMessage, hget]
    | str s => simp [createMessage, hget]
    | other t => simp [createMessage, hget]
    | nilError => simp [createMessage, hget]
    | error text =>
      have hany := any_of_lookup hget
      have hself := lookup_set_self entry.Data ErrorKey (Value.str text) hany
      refine ⟨?_, ?_, ?_, ?_, ?_, ?_, ?_⟩
      · intro k hk
        simp only [createMessage, hget]
        exact lookup_set_other _ _ _ _ hk hany
      · simp only [createMessage, hget]
        exact keys_set _ _ _ hany
      · simp only [createMessage, hget]
      · simp only [createMessage, hget]
      · simp only [createMessage, hget]
      · simp only [createMessage, hget, hself]
      · simp only [createMessage, hget, hself]

lemma createMessage_host {entry : Entry} {hook : ElasticHook} {msg : message}
    (h : (createMessage entry hook).1 = some msg) : msg.Host = hook.host := by
  rw [createMessage_eq] at h
  cases hget : entry.Data.get ErrorKey with
  | none =>
    simp only [hget, Option.some.injEq] at h
    rw [← h]
  | some v =>
    cases v <;> simp only [hget, Option.some.injEq] at h <;> first | rw [← h] | cases h

lemma syncFireFunc_some {entry : Entry} {hook : ElasticHook} {msg : message} (w : World)
    (h : (createMessage entry hook).1 = some msg) :
    syncFireFunc entry hook w =
      match hook.client.indexDo w.trace (w.ctxDone hook.ctx) (hook.index w.indexCalls) msg with
      | IndexAnswer.refused err =>
        (Result.returned (some err), (createMessage entry hook).2,
          { w with indexCalls := w.indexCalls + 1 })
      | IndexAnswer.sent err =>
        (Result.returned err, (createMessage entry hook).2,
          { w with indexCalls := w.indexCalls + 1,
                   trace := w.trace ++ [Event.index (hook.index w.indexCalls) msg hook.ctx] }) := by
  unfold syncFireFunc
  simp only [World.callIndex, World.send, World.ctxDone]
  generalize createMessage entry hook = r at h
  obtain ⟨m, e⟩ := r
  simp only at h
  subst h
  rfl

lemma syncFireFunc_none {entry : Entry} {hook : ElasticHook} (w : World)
    (h : (createMessage entry hook).1 = none) :
    syncFireFunc entry hook w =
      (Result.panicked, (createMessage entry hook).2,
        { w with indexCalls := w.indexCalls + 1 }) := by
  unfold syncFireFunc
  simp only [World.callIndex]
  generalize createMessage entry hook = r at h
  obtain ⟨m, e⟩ := r
  simp only at h
  subst h
  rfl

lemma bulkFireFunc_some {entry : Entry} {hook : ElasticHook} {msg : message} (w : World)
    (p : Nat) (h : (createMessage entry hook).1 = some msg) :
    bulkFireFunc (some p) entry hook w =
      (Result.returned none, (createMessage entry hook).2,
        { w with indexCalls := w.indexCalls + 1,
                 bulkQueue := w.bulkQueue ++ [(p, ⟨hook.index w.indexCalls, msg⟩)] }) := by
  unfold bulkFireFunc
  simp only [World.callIndex]
  generalize createMessage entry hook = r at h
  obtain ⟨m, e⟩ := r
  simp only at h
  subst h
  rfl

lemma bulkFireFunc_none {entry : Entry} {hook : ElasticHook} (w : World)
    (processor : Option Nat) (h : (createMessage entry hook).1 = none) :
    bulkFireFunc processor entry hook w =
      (Result.panicked, (createMessage entry hook).2,
        { w with indexCalls := w.indexCalls + 1 }) := by
  unfold bulkFireFunc
  simp only [World.callIndex]
  generalize createMessage entry hook = r at h
  obtain ⟨m, e⟩ := r
  simp only at h
  subst h
  rfl

/-- What a successful bulk construction returns: the hook's `fireFunc` is the
bulk closure over the processor that the construction started. -/
lemma newBulkHook_some {client : Client} {host : String} {level : Level}
    {indexFunc : IndexNameFunc} {w w' : World} {hook : ElasticHook} {err : Option Error}
    (h : NewBulkProcessorElasticHookWithFunc client host level indexFunc w
      = ((some hook, err), w')) :
    hook = { client := client, host := host, index := indexFunc,
             levels := computeLevels level, ctx := w.nextCtx, ctxCancel := w.nextCtx,
             fireFunc := FireFunc.bulkFireFunc (some w.nextProcessor) } := by
  unfold NewBulkProcessorElasticHookWithFunc makeBulkFireFunc at h
  cases hb : client.bulkProcessorDo w.trace with
  | some e => simp [hb] at h
  | none =>
    simp only [hb] at h
    exact (newHook_some h).1

/-- C9 as the code has it: one `Fire` on a hook built with the sync strategy
and host `h` invokes the index-name function once and sends at most one
request to the backend.  When `createMessage` returns a document (its `Host`
is `h`) and the client does not refuse the request, exactly one request is
sent: an index write addressed to the name the index-name function returns at
that call, whose body is that document.  When the client refuses the request
before sending it, nothing is sent and `Fire` returns the client's error;
when `createMessage` panics, nothing is sent.  In no case is a goroutine
started or anything enqueued. -/
theorem sync_fire_one_write (client : Client) (host : String) (level : Level)
    (indexFunc : IndexNameFunc) (w0 w1 : World) (hook : ElasticHook) (err : Option Error)
    (entry : Entry) (w : World)
    (h : NewElasticHookWithFunc client host level indexFunc w0 = ((some hook, err), w1)) :
    (∀ msg, (createMessage entry hook).1 = some msg →
      msg.Host = host ∧
      (∀ e, client.indexDo w.trace (w.ctxDone hook.ctx) (indexFunc w.indexCalls) msg
          = IndexAnswer.sent e →
        (hook.Fire entry w).2.2.trace =
          w.trace ++ [Event.index (indexFunc w.indexCalls) msg hook.ctx]) ∧
      (∀ e, client.indexDo w.trace (w.ctxDone hook.ctx) (indexFunc w.indexCalls) msg
          = IndexAnswer.refused e →
        (hook.Fire entry w).2.2.trace = w.trace ∧
        (hook.Fire entry w).1 = Result.returned (some e))) ∧
    ((createMessage entry hook).1 = none →
      (hook.Fire entry w).2.2.trace = w.trace ∧ (hook.Fire entry w).1 = Result.panicked) ∧
    (hook.Fire entry w).2.2.indexCalls = w.indexCalls + 1 ∧
    (hook.Fire entry w).2.2.goroutines = w.goroutines ∧
    (hook.Fire entry w).2.2.bulkQueue = w.bulkQueue := by
  have hk := (newHook_some h).1
  have hf : hook.Fire entry w = syncFireFunc entry hook w := by rw [hk]; rfl
  have hc : hook.client = client := by rw [hk]
  have hi : hook.index = indexFunc := by rw [hk]
  have hh : hook.host = host := by rw [hk]
  rw [hf]
  cases hm : (createMessage entry hook).1 with
  | none =>
    rw [syncFireFunc_none w hm]
    refine ⟨?_, fun _ => ⟨rfl, rfl⟩, rfl, rfl, rfl⟩
    intro msg hmsg
    cases hmsg
  | some msg0 =>
    rw [syncFireFunc_some w hm, hc, hi]
    refine ⟨?_, ?_, ?_, ?_, ?_⟩
    · intro msg hmsg
      injection hmsg with hmsg
      subst hmsg
      refine ⟨?_, ?_, ?_⟩
      · rw [← hh]
        exact createMessage_host hm
      · intro e he
        rw [he]
      · intro e he
        rw [he]
        exact ⟨rfl, rfl⟩
    · intro hn
      cases hn
    · cases client.indexDo w.trace (w.ctxDone hook.ctx) (indexFunc w.indexCalls) msg0 <;> rfl
    · cases client.indexDo w.trace (w.ctxDone hook.ctx) (indexFunc w.indexCalls) msg0 <;> rfl
    · cases client.indexDo w.trace (w.ctxDone hook.ctx) (indexFunc w.indexCalls) msg0 <;> rfl

/-- C4: `newHookFuncAndFireFunc` returns a hook and a nil error exactly when
the existence check succeeds and either the index exists or the create
request succeeds and is acknowledged; otherwise it returns no hook and an
error: the check's error when the check fails (the check is then the only
request sent, no goroutine is started and nothing is enqueued), the create
request's error when creation fails, and `ErrCannotCreateIndex` when creation
succeeds without acknowledgement. -/
theorem newHook_outcome (client : Client) (host : String) (level : Level)
    (indexFunc : IndexNameFunc) (fireFunc : FireFunc) (w : World) :
    let ctx := w.nextCtx
    let name1 := indexFunc w.indexCalls
    let check := client.indexExistsDo w.trace (w.ctxDone ctx) name1
    let trace1 := w.trace ++ [Event.indexExists name1 ctx]
    let name2 := indexFunc (w.indexCalls + 1)
    let create := client.createIndexDo trace1 (w.ctxDone ctx) name2
    let r := newHookFuncAndFireFunc client host level indexFunc fireFunc w
    ((∃ hook, r.1 = (some hook, none)) ↔
      (check = Except.ok true ∨
        (check = Except.ok false ∧ create = Except.ok ⟨true⟩))) ∧
    ((¬ ∃ hook, r.1 = (some hook, none)) → ∃ e, r.1 = (none, some e)) ∧
    (∀ e, check = Except.error e →
      r.1 = (none, some e) ∧ r.2.trace = trace1 ∧
      r.2.goroutines = w.goroutines ∧ r.2.bulkQueue = w.bulkQueue) ∧
    (∀ e, check = Except.ok false → create = Except.error e → r.1 = (none, some e)) ∧
    (check = Except.ok false → create = Except.ok ⟨false⟩ →
      r.1 = (none, some ErrCannotCreateIndex)) := by
  intro ctx name1 check trace1 name2 create r
  have hr : r = newHookFuncAndFireFunc client host level indexFunc fireFunc w := rfl
  have hcheck : check = client.indexExistsDo w.trace (w.ctxDone w.nextCtx)
      (indexFunc w.indexCalls) := rfl
  have hcreate : create = client.createIndexDo
      (w.trace ++ [Event.indexExists (indexFunc w.indexCalls) w.nextCtx])
      (w.ctxDone w.nextCtx) (indexFunc (w.indexCalls + 1)) := rfl
  unfold newHookFuncAndFireFunc at hr
  simp only [World.withCancel, World.callIndex, World.send, World.ctxDone, World.cancel] at hr
  simp only [World.ctxDone] at hcheck hcreate
  rw [← hcheck] at hr
  cases hc : check with
  | error e =>
    simp only [hc] at hr
    rw [hr]
    refine ⟨?_, ?_, ?_, ?_, ?_⟩
    · simp
    · intro _; exact ⟨e, rfl⟩
    · intro e' he
      injection he with he
      subst he
      refine ⟨rfl, ?_, ?_, ?_⟩ <;> (split <;> rfl)
    · intro e' he; cases he
    · intro he; cases he
  | ok b =>
    cases b with
    | true =>
      simp only [hc] at hr
      rw [hr]
      refine ⟨?_, ?_, ?_, ?_, ?_⟩
      · simp
      · intro hn; exact absurd ⟨_, rfl⟩ hn
      · intro e' he; cases he
      · intro e' he; cases he
      · intro he; cases he
    | false =>
      simp only [hc] at hr
      rw [← hcreate] at hr
      cases hcr : create with
      | error e =>
        simp only [hcr] at hr
        rw [hr]
        refine ⟨?_, ?_, ?_, ?_, ?_⟩
        · simp
        · intro _; exact ⟨e, rfl⟩
        · intro e' he; cases he
        · intro e' _ he
          injection he with he
          subst he
          rfl
        · intro _ he; cases he
      | ok res =>
        obtain ⟨ack⟩ := res
        cases ack with
        | true =>
          simp only [hcr] at hr
          rw [hr]
          refine ⟨?_, ?_, ?_, ?_, ?_⟩
          · simp
          · intro hn; exact absurd ⟨_, rfl⟩ hn
          · intro e' he; cases he
          · intro e' _ he; cases he
          · intro _ he; cases he
        | false =>
          simp only [hcr] at hr
          rw [hr]
          refine ⟨?_, ?_, ?_, ?_, ?_⟩
          · simp
          · intro _; exact ⟨_, rfl⟩
          · intro e' he; cases he
          · intro e' _ he; cases he
          · intro _ _; rfl

lemma newHook_some_world {client : Client} {host : String} {level : Level}
    {indexFunc : IndexNameFunc} {fireFunc : FireFunc} {w w' : World}
    {hook : ElasticHook} {err : Option Error}
    (h : newHookFuncAndFireFunc client host level indexFunc fireFunc w = ((some hook, err), w')) :
    w'.cancelled = w.cancelled := by
  unfold newHookFuncAndFireFunc at h
  simp only [World.withCancel, World.callIndex, World.send] at h
  split at h
  · simp at h
  · split at h
    · split at h
      · simp at h
      · split at h
        · simp at h
        · simp only [Prod.mk.injEq] at h
          rw [← h.2]
    · simp only [Prod.mk.injEq] at h
      rw [← h.2]

lemma fire_cancelled (hook : ElasticHook) (entry : Entry) (w : World) :
    (hook.Fire entry w).2.2.cancelled = w.cancelled := by
  unfold ElasticHook.Fire callFireFunc
  cases hook.fireFunc with
  | syncFireFunc =>
    show (syncFireFunc entry hook w).2.2.cancelled = w.cancelled
    cases hm : (createMessage entry hook).1 with
    | none => rw [syncFireFunc_none w hm]
    | some msg =>
      rw [syncFireFunc_some w hm]
      cases hook.client.indexDo w.trace (w.ctxDone hook.ctx) (hook.index w.indexCalls) msg <;> rfl
  | asyncFireFunc => rfl
  | bulkFireFunc processor =>
    show (bulkFireFunc processor entry hook w).2.2.cancelled = w.cancelled
    cases hm : (createMessage entry hook).1 with
    | none => rw [bulkFireFunc_none w _ hm]
    | some msg =>
      cases processor with
      | none =>
        unfold bulkFireFunc
        simp only [World.callIndex]
        generalize createMessage entry hook = r at hm
        obtain ⟨m, e⟩ := r
        simp only at hm
        subst hm
        rfl
      | some p => rw [bulkFireFunc_some w _ hm]

lemma cancel_trace (w : World) (ctx : Nat) : (w.cancel ctx).trace = w.trace := by
  unfold World.cancel
  split <;> rfl

lemma cancel_indexCalls (w : World) (ctx : Nat) : (w.cancel ctx).indexCalls = w.indexCalls := by
  unfold World.cancel
  split <;> rfl

lemma cancel_ctxDone (w : World) (ctx : Nat) : (w.cancel ctx).ctxDone ctx = true := by
  unfold World.cancel World.ctxDone
  split
  · rename_i h; simpa using h
  · simp

lemma cancel_cancel (w : World) (ctx : Nat) : (w.cancel ctx).cancel ctx = w.cancel ctx := by
  unfold World.cancel
  by_cases h : ctx ∈ w.cancelled
  · simp [h]
  · simp [h]

lemma cancel_keeps_done (w : World) (ctx ctx' : Nat) (h : w.ctxDone ctx = true) :
    (w.cancel ctx').ctxDone ctx = true := by
  unfold World.cancel
  split
  · exact h
  · simp only [World.ctxDone, decide_eq_true_eq] at h ⊢
    exact List.mem_cons_of_mem _ h

lemma callHook_keeps_done (hook : ElasticHook) (w : World) (c : Call)
    (h : w.ctxDone hook.ctx = true) : (callHook hook w c).ctxDone hook.ctx = true := by
  cases c with
  | Fire entry =>
    simp only [callHook, World.ctxDone, fire_cancelled]
    exact h
  | Levels => exact h
  | Cancel => exact cancel_keeps_done w _ _ h

/-- C7: for a hook that `newHookFuncAndFireFunc` constructed, `Cancel` is
idempotent (a second call leaves the state of the first), after `Cancel` the
hook's context is done, and once the context is done no sequence of `Fire`,
`Levels` and `Cancel` calls makes it not done again; the hook starts not
cancelled when no context number was handed out in advance. -/
theorem cancel_one_way (client : Client) (host : String) (level : Level)
    (indexFunc : IndexNameFunc) (fireFunc : FireFunc) (w0 w1 : World)
    (hook : ElasticHook) (err : Option Error)
    (h : newHookFuncAndFireFunc client host level indexFunc fireFunc w0
      = ((some hook, err), w1)) :
    (∀ w, hook.Cancel (hook.Cancel w) = hook.Cancel w) ∧
    (∀ w, (hook.Cancel w).ctxDone hook.ctx = true) ∧
    (∀ w calls, w.ctxDone hook.ctx = true → (callsHook hook w calls).ctxDone hook.ctx = true) ∧
    ((∀ c ∈ w0.cancelled, c < w0.nextCtx) → w1.ctxDone hook.ctx = false) := by
  have hw := newHook_some_world h
  have hk := (newHook_some h).1
  subst hk
  refine ⟨?_, ?_, ?_, ?_⟩
  · intro w
    exact cancel_cancel w _
  · intro w
    exact cancel_ctxDone w _
  · intro w calls
    induction calls generalizing w with
    | nil => intro hd; exact hd
    | cons c cs ih =>
      intro hd
      exact ih _ (callHook_keeps_done _ w c hd)
  · intro hfresh
    simp only [World.ctxDone, hw, decide_eq_false_iff_not]
    intro hmem
    exact Nat.lt_irrefl _ (hfresh _ hmem)

/-- C5 as the code has it: a severity below the threshold (a larger level
number) is not in `Levels()` of a constructed hook, so the logging
framework, which passes an entry to `Fire` only when its level is in
`Levels()`, makes no delivery call for it: nothing is returned but nil, and
the entry and the world (requests sent, goroutines, bulk queue) are as
before.  `Fire` itself does not look at the severity: called directly with
such an entry, a sync hook sends the index write for its document, an async
hook starts the goroutine for it (which sends that write when it runs), and a
bulk hook enqueues its document. -/
theorem below_threshold_not_routed :
    (∀ (client : Client) (host : String) (T : Level) (indexFunc : IndexNameFunc)
        (fireFunc : FireFunc) (w0 w1 : World) (hook : ElasticHook) (err : Option Error)
        (entry : Entry) (w : World),
        newHookFuncAndFireFunc client host T indexFunc fireFunc w0 = ((some hook, err), w1) →
        T < entry.Level →
        entry.Level ∉ hook.Levels ∧
        fireHooks hook entry w = (Result.returned none, entry, w)) ∧
    (∀ (client : Client) (host : String) (T : Level) (indexFunc : IndexNameFunc)
        (w0 w1 : World) (hook : ElasticHook) (err : Option Error) (entry : Entry) (w : World)
        (msg : message) (e : Option Error),
        NewElasticHookWithFunc client host T indexFunc w0 = ((some hook, err), w1) →
        T < entry.Level →
        (createMessage entry hook).1 = some msg →
        client.indexDo w.trace (w.ctxDone hook.ctx) (indexFunc w.indexCalls) msg
          = IndexAnswer.sent e →
        (hook.Fire entry w).2.2.trace =
          w.trace ++ [Event.index (indexFunc w.indexCalls) msg hook.ctx]) ∧
    (∀ (client : Client) (host : String) (T : Level) (indexFunc : IndexNameFunc)
        (w0 w1 : World) (hook : ElasticHook) (err : Option Error) (entry : Entry) (w : World),
        NewAsyncElasticHookWithFunc client host T indexFunc w0 = ((some hook, err), w1) →
        T < entry.Level →
        (hook.Fire entry w).2.2.goroutines = w.goroutines ++ [(entry, hook)]) ∧
    (∀ (client : Client) (host : String) (T : Level) (indexFunc : IndexNameFunc)
        (w0 w1 : World) (hook : ElasticHook) (err : Option Error) (entry : Entry) (w : World)
        (msg : message) (e : Option Error),
        NewAsyncElasticHookWithFunc client host T indexFunc w0 = ((some hook, err), w1) →
        T < entry.Level →
        w.goroutines = [] →
        (createMessage entry hook).1 = some msg →
        client.indexDo w.trace (w.ctxDone hook.ctx) (indexFunc w.indexCalls) msg
          = IndexAnswer.sent e →
        (runGoroutine (hook.Fire entry w).2.2).trace =
          w.trace ++ [Event.index (indexFunc w.indexCalls) msg hook.ctx]) ∧
    (∀ (client : Client) (host : String) (T : Level) (indexFunc : IndexNameFunc)
        (w0 w1 : World) (hook : ElasticHook) (err : Option Error) (entry : Entry) (w : World)
        (msg : message),
        NewBulkProcessorElasticHookWithFunc client host T indexFunc w0
          = ((some hook, err), w1) →
        T < entry.Level →
        (createMessage entry hook).1 = some msg →
        (hook.Fire entry w).2.2.bulkQueue =
          w.bulkQueue ++ [(w0.nextProcessor, ⟨indexFunc w.indexCalls, msg⟩)]) := by
  refine ⟨?_, ?_, ?_, ?_, ?_⟩
  · intro client host T indexFunc fireFunc w0 w1 hook err entry w h hlt
    have hk := (newHook_some h).1
    subst hk
    have hnot : entry.Level ∉ computeLevels T := by
      intro hmem
      exact Nat.lt_irrefl _
        (Nat.lt_of_lt_of_le hlt ((mem_computeLevels T entry.Level).1 hmem).2)
    refine ⟨hnot, ?_⟩
    simp only [fireHooks, ElasticHook.Levels]
    rw [if_neg hnot]
  · intro client host T indexFunc w0 w1 hook err entry w msg e h _ hm he
    have hk := (newHook_some h).1
    have hf : hook.Fire entry w = syncFireFunc entry hook w := by rw [hk]; rfl
    have hc : hook.client = client := by rw [hk]
    have hi : hook.index = indexFunc := by rw [hk]
    rw [hf, syncFireFunc_some w hm, hc, hi, he]
  · intro client host T indexFunc w0 w1 hook err entry w h _
    have hk := (newHook_some h).1
    have hf : hook.Fire entry w = asyncFireFunc entry hook w := by rw [hk]; rfl
    rw [hf]
    rfl
  · intro client host T indexFunc w0 w1 hook err entry w msg e h _ hg hm he
    have hk := (newHook_some h).1
    have hf : hook.Fire entry w = asyncFireFunc entry hook w := by rw [hk]; rfl
    have hc : hook.client = client := by rw [hk]
    have hi : hook.index = indexFunc := by rw [hk]
    rw [hf]
    simp only [asyncFireFunc, runGoroutine, hg, List.nil_append]
    rw [syncFireFunc_some _ hm]
    simp only [World.ctxDone, hc, hi]
    simp only [World.ctxDone] at he
    rw [he]
  · intro client host T indexFunc w0 w1 hook err entry w msg h _ hm
    have hk := newBulkHook_some h
    have hf : hook.Fire entry w = bulkFireFunc (some w0.nextProcessor) entry hook w := by
      rw [hk]; rfl
    have hi : hook.index = indexFunc := by rw [hk]
    rw [hf, bulkFireFunc_some w _ hm, hi]

/-- Witness for C1: threshold Info, severity Error, on a backend where the
index exists. -/
theorem levels_iff_atOrAbove_witness :
    InfoLevel ∈ AllLevels ∧ ErrorLevel ∈ AllLevels ∧
    newHookFuncAndFireFunc okClient "h1" InfoLevel (fun _ => "logs") FireFunc.syncFireFunc
      World.empty = ((some (hookH1 InfoLevel FireFunc.syncFireFunc), none), worldH1) ∧
    (ErrorLevel ∈ (hookH1 InfoLevel FireFunc.syncFireFunc).Levels ↔
      atOrAbove ErrorLevel InfoLevel) :=
  ⟨by decide, by decide, rfl,
    levels_iff_atOrAbove okClient "h1" InfoLevel ErrorLevel (fun _ => "logs")
      FireFunc.syncFireFunc World.empty worldH1 (hookH1 InfoLevel FireFunc.syncFireFunc) none
      (by decide) (by decide) rfl⟩

/-- Witness for C10: the threshold 9 is beyond Trace and gives all seven
levels. -/
theorem computeLevels_take_witness :
    TraceLevel ≤ (9 : Level) ∧ computeLevels 9 = AllLevels :=
  ⟨by decide, (computeLevels_take 9).2.2.2.2.2.1 (by decide)⟩

/-- Counterexample to C2 as stated: an entry that carries a nil pointer of an
error type under the error key.  The value is not the nil interface and is an
error, so `createMessage` calls its `Error()`, which panics: no document is
returned. -/
theorem createMessage_panics_on_nil_pointer :
    nilErrorEntry.Data.get ErrorKey = some Value.nilError ∧
    (createMessage nilErrorEntry (hookH1 InfoLevel FireFunc.syncFireFunc)).1 = none :=
  ⟨by decide, by decide⟩

/-- Witness for C2 as the code has it: an entry at Warn that carries the
error "boom" is encoded with level WARNING and the text "boom". -/
theorem createMessage_document_witness :
    (failedEntry WarnLevel).Data.get ErrorKey ≠ some Value.nilError ∧
    (failedEntry WarnLevel).Data.get ErrorKey = some (Value.error "boom") ∧
    (createMessage (failedEntry WarnLevel) (hookH1 InfoLevel FireFunc.syncFireFunc)).1 =
      some { Host := "h1", Timestamp := "2020-01-01T23:59:59.5Z", Message := "request failed",
             Data := [("user", Value.str "ann"), ("error", Value.str "boom")],
             Level := "WARNING" } ∧
    (∃ msg, (createMessage (failedEntry WarnLevel)
      (hookH1 InfoLevel FireFunc.syncFireFunc)).1 = some msg) ∧
    ({ Host := "h1", Timestamp := "2020-01-01T23:59:59.5Z", Message := "request failed",
       Data := [("user", Value.str "ann"), ("error", Value.str "boom")],
       Level := "WARNING" } : message).Data.get ErrorKey = some (Value.str "boom") :=
  ⟨by decide, by decide, by decide,
    (createMessage_document (failedEntry WarnLevel)
      (hookH1 InfoLevel FireFunc.syncFireFunc)).1 (by decide),
    ((createMessage_document (failedEntry WarnLevel)
      (hookH1 InfoLevel FireFunc.syncFireFunc)).2.2.2 _ (by decide)).2.2.2.2.1 "boom"
      (by decide)⟩

/-- Witness for C8: the key "user" of an entry that carries an error. -/
theorem createMessage_frame_witness :
    "user" ≠ ErrorKey ∧
    (createMessage (failedEntry WarnLevel) (hookH1 InfoLevel FireFunc.syncFireFunc)).2.Data.get
      "user" = (failedEntry WarnLevel).Data.get "user" :=
  ⟨by decide,
    (createMessage_frame (failedEntry WarnLevel)
      (hookH1 InfoLevel FireFunc.syncFireFunc)).1 "user" (by decide)⟩

/-- Counterexample to C9 as stated: a sync hook, one entry at Error whose
data holds a channel.  `createMessage` returns the document, the client
cannot encode it as JSON and `Do` returns the encoding error before anything
is sent: `Fire` issues no index write. -/
theorem sync_fire_refused_sends_nothing :
    NewElasticHookWithFunc jsonClient "h1" InfoLevel (fun _ => "logs") World.empty
      = ((some hookJson, none), worldH1) ∧
    (createMessage chanEntry hookJson).1 =
      some { Host := "h1", Timestamp := "2020-01-01T23:59:59.5Z", Message := "connection lost",
             Data := [("conn", Value.other 0)], Level := "ERROR" } ∧
    (hookJson.Fire chanEntry worldH1).2.2.trace = worldH1.trace ∧
    (hookJson.Fire chanEntry worldH1).1 =
      Result.returned (some ⟨"json: unsupported type: chan int"⟩) :=
  ⟨rfl, by decide, by decide, by decide⟩

/-- Witness for C9 as the code has it: threshold Info, one entry at Error,
host "h1", on a client that sends the request. -/
theorem sync_fire_one_write_witness :
    NewElasticHookWithFunc okClient "h1" InfoLevel (fun _ => "logs") World.empty
      = ((some (hookH1 InfoLevel FireFunc.syncFireFunc), none), worldH1) ∧
    (createMessage (failedEntry ErrorLevel) (hookH1 InfoLevel FireFunc.syncFireFunc)).1 =
      some { Host := "h1", Timestamp := "2020-01-01T23:59:59.5Z", Message := "request failed",
             Data := [("user", Value.str "ann"), ("error", Value.str "boom")],
             Level := "ERROR" } ∧
    okClient.indexDo worldH1.trace (worldH1.ctxDone 0) "logs"
      { Host := "h1", Timestamp := "2020-01-01T23:59:59.5Z", Message := "request failed",
        Data := [("user", Value.str "ann"), ("error", Value.str "boom")],
        Level := "ERROR" } = IndexAnswer.sent none ∧
    ((hookH1 InfoLevel FireFunc.syncFireFunc).Fire (failedEntry ErrorLevel) worldH1).2.2.trace =
      worldH1.trace ++ [Event.index "logs"
        { Host := "h1", Timestamp := "2020-01-01T23:59:59.5Z", Message := "request failed",
          Data := [("user", Value.str "ann"), ("error", Value.str "boom")],
          Level := "ERROR" } 0] :=
  ⟨rfl, by decide, rfl,
    ((sync_fire_one_write okClient "h1" InfoLevel (fun _ => "logs") World.empty worldH1
      (hookH1 InfoLevel FireFunc.syncFireFunc) none (failedEntry ErrorLevel) worldH1 rfl).1
      _ (by decide)).2.1 none rfl⟩

/-- Witness for C4: on a backend that cannot be reached the construction
returns the check's error and no hook; on a backend that does not
acknowledge the creation it returns `ErrCannotCreateIndex` and no hook. -/
theorem newHook_outcome_witness :
    (downClient.indexExistsDo World.empty.trace (World.empty.ctxDone 0) "logs"
      = Except.error ⟨"connection refused"⟩ ∧
    (newHookFuncAndFireFunc downClient "h1" InfoLevel (fun _ => "logs") FireFunc.syncFireFunc
      World.empty).1 = (none, some ⟨"connection refused"⟩)) ∧
    (unackClient.indexExistsDo World.empty.trace (World.empty.ctxDone 0) "logs"
      = Except.ok false ∧
    unackClient.createIndexDo [Event.indexExists "logs" 0] (World.empty.ctxDone 0) "logs"
      = Except.ok ⟨false⟩ ∧
    (newHookFuncAndFireFunc unackClient "h1" InfoLevel (fun _ => "logs") FireFunc.syncFireFunc
      World.empty).1 = (none, some ErrCannotCreateIndex)) :=
  ⟨⟨rfl,
    ((newHook_outcome downClient "h1" InfoLevel (fun _ => "logs") FireFunc.syncFireFunc
      World.empty).2.2.1 ⟨"connection refused"⟩ rfl).1⟩,
   ⟨rfl, rfl,
    (newHook_outcome unackClient "h1" InfoLevel (fun _ => "logs") FireFunc.syncFireFunc
      World.empty).2.2.2.2 rfl rfl⟩⟩

/-- Witness for C7: the hook constructed from the empty world. -/
theorem cancel_one_way_witness :
    newHookFuncAndFireFunc okClient "h1" InfoLevel (fun _ => "logs") FireFunc.syncFireFunc
      World.empty = ((some (hookH1 InfoLevel FireFunc.syncFireFunc), none), worldH1) ∧
    (∀ c ∈ World.empty.cancelled, c < World.empty.nextCtx) ∧
    worldH1.ctxDone (hookH1 InfoLevel FireFunc.syncFireFunc).ctx = false ∧
    ((hookH1 InfoLevel FireFunc.syncFireFunc).Cancel worldH1).ctxDone
      (hookH1 InfoLevel FireFunc.syncFireFunc).ctx = true :=
  ⟨rfl, by decide,
    (cancel_one_way okClient "h1" InfoLevel (fun _ => "logs") FireFunc.syncFireFunc
      World.empty worldH1 (hookH1 InfoLevel FireFunc.syncFireFunc) none rfl).2.2.2 (by decide),
    (cancel_one_way okClient "h1" InfoLevel (fun _ => "logs") FireFunc.syncFireFunc
      World.empty worldH1 (hookH1 InfoLevel FireFunc.syncFireFunc) none rfl).2.1 worldH1⟩

/-- Counterexample to C5 as stated: threshold Error, one entry at Warn.
Warn is not in `Levels()`, yet `Fire` sends an index write for the entry. -/
theorem fire_below_threshold_delivers :
    NewElasticHook okClient "h1" ErrorLevel "logs" World.empty
      = ((some (hookH1 ErrorLevel FireFunc.syncFireFunc), none), worldH1) ∧
    WarnLevel ∉ (hookH1 ErrorLevel FireFunc.syncFireFunc).Levels ∧
    ((hookH1 ErrorLevel FireFunc.syncFireFunc).Fire (failedEntry WarnLevel) worldH1).2.2.trace =
      [Event.indexExists "logs" 0,
       Event.index "logs"
        { Host := "h1", Timestamp := "2020-01-01T23:59:59.5Z", Message := "request failed",
          Data := [("user", Value.str "ann"), ("error", Value.str "boom")],
          Level := "WARNING" } 0] :=
  ⟨rfl, by decide, by decide⟩

/-- Witness for C5 as the code has it: threshold Error, one entry at Warn.
The framework's routing leaves the world as it is; a direct `Fire` on the
sync hook sends the write, on the async hook starts the goroutine, on the
bulk hook enqueues the document. -/
theorem below_threshold_not_routed_witness :
    (newHookFuncAndFireFunc okClient "h1" ErrorLevel (fun _ => "logs") FireFunc.syncFireFunc
      World.empty = ((some (hookH1 ErrorLevel FireFunc.syncFireFunc), none), worldH1) ∧
    ErrorLevel < (failedEntry WarnLevel).Level ∧
    fireHooks (hookH1 ErrorLevel FireFunc.syncFireFunc) (failedEntry WarnLevel) worldH1 =
      (Result.returned none, failedEntry WarnLevel, worldH1)) ∧
    ((hookH1 ErrorLevel FireFunc.syncFireFunc).Fire (failedEntry WarnLevel) worldH1).2.2.trace =
      worldH1.trace ++ [Event.index "logs"
        { Host := "h1", Timestamp := "2020-01-01T23:59:59.5Z", Message := "request failed",
          Data := [("user", Value.str "ann"), ("error", Value.str "boom")],
          Level := "WARNING" } 0] ∧
    ((hookH1 ErrorLevel FireFunc.asyncFireFunc).Fire (failedEntry WarnLevel)
      worldH1).2.2.goroutines =
      worldH1.goroutines ++ [(failedEntry WarnLevel, hookH1 ErrorLevel FireFunc.asyncFireFunc)] ∧
    ((hookH1 ErrorLevel (FireFunc.bulkFireFunc (some 0))).Fire (failedEntry WarnLevel)
      worldBulkH1).2.2.bulkQueue =
      worldBulkH1.bulkQueue ++ [(0, ⟨"logs",
        { Host := "h1", Timestamp := "2020-01-01T23:59:59.5Z", Message := "request failed",
          Data := [("user", Value.str "ann"), ("error", Value.str "boom")],
          Level := "WARNING" }⟩)] :=
  ⟨⟨rfl, by decide,
    (below_threshold_not_routed.1 okClient "h1" ErrorLevel (fun _ => "logs")
      FireFunc.syncFireFunc World.empty worldH1 (hookH1 ErrorLevel FireFunc.syncFireFunc) none
      (failedEntry WarnLevel) worldH1 rfl (by decide)).2⟩,
   below_threshold_not_routed.2.1 okClient "h1" ErrorLevel (fun _ => "logs") World.empty
      worldH1 (hookH1 ErrorLevel FireFunc.syncFireFunc) none (failedEntry WarnLevel) worldH1
      _ none rfl (by decide) (by decide) rfl,
   below_threshold_not_routed.2.2.1 okClient "h1" ErrorLevel (fun _ => "logs") World.empty
      worldH1 (hookH1 ErrorLevel FireFunc.asyncFireFunc) none (failedEntry WarnLevel) worldH1
      rfl (by decide),
   below_threshold_not_routed.2.2.2.2 okClient "h1" ErrorLevel (fun _ => "logs") World.empty
      worldBulkH1 (hookH1 ErrorLevel (FireFunc.bulkFireFunc (some 0))) none
      (failedEntry WarnLevel) worldBulkH1 _ rfl (by decide) (by decide)⟩

/-- C6 at a failing input: on a backend where the index is absent, one
construction invokes the index-name function twice (lines 94 and 100), also
when it always answers "logs"; with one index per day, called across
midnight, the existence check asks for one index and the create request
names another. -/
theorem construction_resolves_twice :
    (newHookFuncAndFireFunc freshClient "h1" InfoLevel (fun _ => "logs") FireFunc.syncFireFunc
      World.empty).2.indexCalls = 2 ∧
    (newHookFuncAndFireFunc freshClient "h1" InfoLevel dailyIndex FireFunc.syncFireFunc
      World.empty).2.indexCalls = 2 ∧
    (newHookFuncAndFireFunc freshClient "h1" InfoLevel dailyIndex FireFunc.syncFireFunc
      World.empty).2.trace =
      [Event.indexExists "logs-2020.01.01" 0, Event.createIndex "logs-2020.01.02" 0] :=
  ⟨by decide, by decide, by decide⟩

end EsHook
